import Mathlib

/-!
Verification of the Connectivity and Notification Core of the oceangram-tray
repository: a shallow embedding of the Unread Tracker (tracker.ts / tracker.js),
the Connection Supervisor's reconnect and connectivity bookkeeping (daemon.js),
and the Bubble Window Pool (bubbles.js), together with theorems about their
stated properties.

JavaScript `Map` objects are embedded as insertion-ordered association lists;
JavaScript field values that participate in `||` coalescing and `String(...)`
conversion are embedded by the `JsVal` type with explicit truthiness.
-/

set_option maxHeartbeats 1000000

/-- A JavaScript value as it occurs in the message and dialog records:
either `undefined`, a number, or a string. -/
inductive JsVal where
  | undef : JsVal
  | num : Int → JsVal
  | str : String → JsVal
deriving DecidableEq, Repr

namespace JsVal

/-- JavaScript truthiness for the embedded values: `undefined`, `0` and the
empty string are falsy, everything else truthy. -/
def truthy : JsVal → Bool
  | undef => false
  | num n => n != 0
  | str s => s != ""

/-- The JavaScript `a || b` operator on embedded values. -/
def jsOr (a b : JsVal) : JsVal := if a.truthy then a else b

/-- The JavaScript `String(v)` conversion on embedded values. -/
def toStr : JsVal → String
  | undef => "undefined"
  | num n => toString n
  | str s => s

end JsVal

/-- `Map.get(k)`: the value stored under `k`, if any. -/
def mapGet {α : Type} (m : List (String × α)) (k : String) : Option α :=
  match m.find? (fun p => p.1 == k) with
  | some p => some p.2
  | none => none

/-- `Map.has(k)`. -/
def mapHas {α : Type} (m : List (String × α)) (k : String) : Bool :=
  m.any (fun p => p.1 == k)

/-- In-place overwrite of the binding of `k`, keeping list positions. -/
def mapReplace {α : Type} (m : List (String × α)) (k : String) (v : α) :
    List (String × α) :=
  m.map (fun p => if p.1 == k then (k, v) else p)

/-- `Map.set(k, v)`: overwrite in place when the key exists (keeping its
insertion position), append otherwise — JavaScript `Map` insertion-order
semantics. -/
def mapSet {α : Type} (m : List (String × α)) (k : String) (v : α) :
    List (String × α) :=
  if mapHas m k then mapReplace m k v
  else m ++ [(k, v)]

/-- `Map.delete(k)`. -/
def mapDelete {α : Type} (m : List (String × α)) (k : String) :
    List (String × α) :=
  m.filter (fun p => !(p.1 == k))

section MapLemmas

variable {α : Type}

lemma mapGet_nil (k : String) : mapGet ([] : List (String × α)) k = none := rfl

lemma mapGet_cons (p : String × α) (rest : List (String × α)) (k : String) :
    mapGet (p :: rest) k = if p.1 = k then some p.2 else mapGet rest k := by
  by_cases h : p.1 = k
  · have hb : (p.1 == k) = true := by simpa using h
    simp [mapGet, List.find?, hb, h]
  · have hb : (p.1 == k) = false := by simpa using h
    simp [mapGet, List.find?, hb, h]

lemma mapHas_cons (p : String × α) (rest : List (String × α)) (k : String) :
    mapHas (p :: rest) k = if p.1 = k then true else mapHas rest k := by
  by_cases h : p.1 = k
  · have hb : (p.1 == k) = true := by simpa using h
    simp [mapHas, hb, h]
  · have hb : (p.1 == k) = false := by simpa using h
    simp [mapHas, hb, h]

lemma mapHas_true_iff (m : List (String × α)) (k : String) :
    mapHas m k = true ↔ ∃ v, mapGet m k = some v := by
  induction m with
  | nil => simp [mapHas, mapGet]
  | cons p rest ih =>
    rw [mapHas_cons, mapGet_cons]
    by_cases h : p.1 = k
    · simp [h]
    · simp [h, ih]

lemma mapHas_false_get (m : List (String × α)) (k : String)
    (h : mapHas m k = false) : mapGet m k = none := by
  cases hg : mapGet m k with
  | none => rfl
  | some v =>
    have : mapHas m k = true := (mapHas_true_iff m k).mpr ⟨v, hg⟩
    rw [this] at h
    exact absurd h (by simp)

lemma mapGet_some_has (m : List (String × α)) (k : String) (v : α)
    (h : mapGet m k = some v) : mapHas m k = true :=
  (mapHas_true_iff m k).mpr ⟨v, h⟩

lemma mapReplace_cons (p : String × α) (rest : List (String × α))
    (k : String) (v : α) :
    mapReplace (p :: rest) k v =
      (if p.1 = k then (k, v) else p) :: mapReplace rest k v := by
  by_cases hp : p.1 = k
  · simp [mapReplace, hp]
  · simp [mapReplace, hp]

lemma mapGet_replace_eq (m : List (String × α)) (k : String) (v : α)
    (h : mapHas m k = true) : mapGet (mapReplace m k v) k = some v := by
  induction m with
  | nil => simp [mapHas] at h
  | cons p rest ih =>
    rw [mapHas_cons] at h
    rw [mapReplace_cons]
    by_cases hp : p.1 = k
    · rw [if_pos hp, mapGet_cons]
      simp
    · rw [if_neg hp, mapGet_cons, if_neg hp]
      exact ih (by simpa [hp] using h)

lemma mapGet_replace_ne (m : List (String × α)) (k k' : String) (v : α)
    (h : k' ≠ k) : mapGet (mapReplace m k v) k' = mapGet m k' := by
  induction m with
  | nil => rfl
  | cons p rest ih =>
    rw [mapReplace_cons]
    by_cases hp : p.1 = k
    · rw [if_pos hp, mapGet_cons, mapGet_cons]
      have hkk' : ¬ (((k, v) : String × α).1 = k') := fun hx => h hx.symm
      have hpk' : ¬ (p.1 = k') := by rw [hp]; exact fun hx => h hx.symm
      rw [if_neg hkk', if_neg hpk']
      exact ih
    · rw [if_neg hp, mapGet_cons, mapGet_cons]
      by_cases hq : p.1 = k'
      · rw [if_pos hq, if_pos hq]
      · rw [if_neg hq, if_neg hq]
        exact ih

lemma mapGet_append_single_eq (m : List (String × α)) (k : String) (v : α)
    (h : mapHas m k = false) : mapGet (m ++ [(k, v)]) k = some v := by
  induction m with
  | nil => simp [mapGet_cons]
  | cons p rest ih =>
    rw [mapHas_cons] at h
    by_cases hp : p.1 = k
    · simp [hp] at h
    · have hrest : mapHas rest k = false := by simpa [hp] using h
      simpa [mapGet_cons, hp] using ih hrest

lemma mapGet_append_single_ne (m : List (String × α)) (k k' : String) (v : α)
    (h : k' ≠ k) : mapGet (m ++ [(k, v)]) k' = mapGet m k' := by
  induction m with
  | nil =>
    have hk : ¬ (k = k') := fun hx => h hx.symm
    simp [mapGet_cons, hk, mapGet]
  | cons p rest ih =>
    by_cases hq : p.1 = k'
    · simp [mapGet_cons, hq]
    · simpa [mapGet_cons, hq] using ih

lemma mapGet_set_eq (m : List (String × α)) (k : String) (v : α) :
    mapGet (mapSet m k v) k = some v := by
  unfold mapSet
  by_cases h : mapHas m k
  · simp only [h, if_true]
    exact mapGet_replace_eq m k v h
  · have hf : mapHas m k = false := by simpa using h
    simp only [hf, Bool.false_eq_true, if_false]
    exact mapGet_append_single_eq m k v hf

lemma mapGet_set_ne (m : List (String × α)) (k k' : String) (v : α)
    (h : k' ≠ k) : mapGet (mapSet m k v) k' = mapGet m k' := by
  unfold mapSet
  by_cases hh : mapHas m k
  · simp only [hh, if_true]
    exact mapGet_replace_ne m k k' v h
  · have hf : mapHas m k = false := by simpa using hh
    simp only [hf, Bool.false_eq_true, if_false]
    exact mapGet_append_single_ne m k k' v h

lemma mapDelete_cons (p : String × α) (rest : List (String × α))
    (k : String) :
    mapDelete (p :: rest) k =
      if p.1 = k then mapDelete rest k else p :: mapDelete rest k := by
  by_cases hp : p.1 = k
  · simp [mapDelete, hp]
  · simp [mapDelete, hp]

lemma mapGet_delete_eq (m : List (String × α)) (k : String) :
    mapGet (mapDelete m k) k = none := by
  induction m with
  | nil => rfl
  | cons p rest ih =>
    rw [mapDelete_cons]
    by_cases hp : p.1 = k
    · rw [if_pos hp]; exact ih
    · rw [if_neg hp, mapGet_cons, if_neg hp]; exact ih

lemma mapGet_delete_ne (m : List (String × α)) (k k' : String)
    (h : k' ≠ k) : mapGet (mapDelete m k) k' = mapGet m k' := by
  induction m with
  | nil => rfl
  | cons p rest ih =>
    rw [mapDelete_cons]
    by_cases hp : p.1 = k
    · rw [if_pos hp, mapGet_cons]
      have hpk' : ¬ (p.1 = k') := by rw [hp]; exact fun hx => h hx.symm
      rw [if_neg hpk']
      exact ih
    · rw [if_neg hp, mapGet_cons, mapGet_cons]
      by_cases hq : p.1 = k'
      · rw [if_pos hq, if_pos hq]
      · rw [if_neg hq, if_neg hq]
        exact ih

lemma mapSet_length_new (m : List (String × α)) (k : String) (v : α)
    (h : mapHas m k = false) :
    (mapSet m k v).length = m.length + 1 := by
  simp [mapSet, h]

lemma mapSet_length_old (m : List (String × α)) (k : String) (v : α)
    (h : mapHas m k = true) :
    (mapSet m k v).length = m.length := by
  simp [mapSet, h, mapReplace]

lemma mapDelete_length_le (m : List (String × α)) (k : String) :
    (mapDelete m k).length ≤ m.length :=
  List.length_filter_le _ m

end MapLemmas

/-- A backend message record, with the fields the tracker reads
(types.ts `TelegramMessage`, restricted to the fields the core consumes). -/
structure TelegramMessage where
  id : Int
  fromId : JsVal
  senderId : JsVal
  dialogId : JsVal
  chatId : JsVal
deriving DecidableEq, Repr

/-- A backend dialog record, with the fields the poll path reads. -/
structure TelegramDialog where
  id : JsVal
  userId : JsVal
deriving DecidableEq, Repr

/-- A per-contact unread ledger row (types.ts `UnreadEntry`). -/
structure UnreadEntry where
  dialogId : Option String
  messages : List TelegramMessage
  count : Nat
deriving DecidableEq, Repr

namespace Tracker

/-- The in-memory state of the `MessageTracker`: the unread ledger keyed by
userId and the per-dialog watermark map (`lastSeenIds`), both JavaScript
`Map`s.  `_saveLastSeen` persists `lastSeenIds` wholesale, so the map is also
the persisted watermark state. -/
structure TrackerState where
  unreads : List (String × UnreadEntry)
  lastSeenIds : List (String × Int)
deriving DecidableEq, Repr

/-- The tracker's fresh state at construction (before `_loadLastSeen`
merges the on-disk file, here taken as a parameter of reachability). -/
def initState : TrackerState := ⟨[], []⟩

/-- The notifications the tracker emits. -/
inductive TrackerEvent where
  | newMessage (userId dialogId : String) (msg : TelegramMessage)
  | unreadsChanged (userId : String) (count : Nat)
  | messagesRead (userId : String)
deriving DecidableEq, Repr

/-- `whitelist.isWhitelisted`, over the list of whitelisted userId strings. -/
def isWhitelisted (wl : List String) (userId : String) : Bool :=
  wl.any (fun u => u == userId)

/-- `_addUnread(userId, dialogId, msg)`: create the row on first use,
drop the message if an entry with the same id is already buffered, otherwise
append, recompute the count and emit the two notifications. -/
def _addUnread (st : TrackerState) (userId dialogId : String)
    (msg : TelegramMessage) : TrackerState × List TrackerEvent :=
  let unreads0 :=
    if mapHas st.unreads userId then st.unreads
    else mapSet st.unreads userId ⟨some dialogId, [], 0⟩
  match mapGet unreads0 userId with
  | none => ({ st with unreads := unreads0 }, [])
  | some entry =>
    if entry.messages.any (fun m => m.id == msg.id) then
      ({ st with unreads := unreads0 }, [])
    else
      let entry1 : UnreadEntry :=
        ⟨some dialogId, entry.messages ++ [msg], (entry.messages ++ [msg]).length⟩
      ({ st with unreads := mapSet unreads0 userId entry1 },
       [TrackerEvent.newMessage userId dialogId msg,
        TrackerEvent.unreadsChanged userId entry1.count])

/-- `_handleNewMessage(event)` (push path), after the `event.message || event`
coalescing has produced the message record: resolve the sender and dialog keys
with JavaScript `||` fallbacks, drop non-whitelisted senders, else accept. -/
def _handleNewMessage (wl : List String) (st : TrackerState)
    (msg : TelegramMessage) : TrackerState × List TrackerEvent :=
  let fromId := ((msg.fromId.jsOr msg.senderId).jsOr (JsVal.str "")).toStr
  let dialogId := ((msg.dialogId.jsOr msg.chatId).jsOr (JsVal.str "")).toStr
  if fromId == "" then (st, [])
  else if ¬ isWhitelisted wl fromId then (st, [])
  else _addUnread st fromId dialogId msg

/-- The poll path's per-dialog message selection: with a truthy (nonzero)
stored watermark, keep the fetched messages with id above it whose resolved
sender key equals the contact's userId; otherwise keep nothing
(`lastSeen ? messages.filter(...) : []`). -/
def pollNewMsgs (st : TrackerState) (dialogId userId : String)
    (messages : List TelegramMessage) : List TelegramMessage :=
  match mapGet st.lastSeenIds dialogId with
  | none => []
  | some lastSeen =>
    if lastSeen = 0 then []
    else messages.filter
      (fun m => decide (lastSeen < m.id) && ((m.fromId.jsOr m.senderId).toStr == userId))

/-- One dialog's step of `_poll`: skip non-whitelisted dialogs and empty
fetches, then accept each selected message through `_addUnread` in order. -/
def pollDialog (wl : List String) (acc : TrackerState × List TrackerEvent)
    (d : TelegramDialog) (messages : List TelegramMessage) :
    TrackerState × List TrackerEvent :=
  let st := acc.1
  let userId := (d.userId.jsOr d.id).toStr
  if ¬ isWhitelisted wl userId then acc
  else
    let dialogId := d.id.toStr
    if messages.isEmpty then acc
    else
      (pollNewMsgs st dialogId userId messages).foldl
        (fun a msg =>
          let r := _addUnread a.1 userId dialogId msg
          (r.1, a.2 ++ r.2)) acc

/-- One full `_poll` tick: nothing when disconnected, else the dialog steps in
order over the fetched batch. -/
def pollTick (wl : List String) (connected : Bool) (st : TrackerState)
    (batch : List (TelegramDialog × List TelegramMessage)) :
    TrackerState × List TrackerEvent :=
  if ¬ connected then (st, [])
  else batch.foldl (fun acc p => pollDialog wl acc p.1 p.2) (st, [])

/-- The `entry.dialogId || ''` key under which `markRead` stores the
watermark. -/
def dialogKey (e : UnreadEntry) : String := e.dialogId.getD ""

/-- `markRead(userId)`: no-op without a ledger row; otherwise set the
watermark of the entry's dialog key to the chronologically last buffered
message's id, delete the row, and emit the read and zero-count
notifications. -/
def markRead (st : TrackerState) (userId : String) :
    TrackerState × List TrackerEvent :=
  match mapGet st.unreads userId with
  | none => (st, [])
  | some entry =>
    let st1 :=
      match entry.messages.getLast? with
      | none => st
      | some latest =>
        { st with lastSeenIds := mapSet st.lastSeenIds (dialogKey entry) latest.id }
    ({ st1 with unreads := mapDelete st1.unreads userId },
     [TrackerEvent.messagesRead userId,
      TrackerEvent.unreadsChanged userId 0])

/-- `getUnreads(userId)`: the stored row or the empty entry; `Map.get` does
not mutate, so the embedding is a pure read. -/
def getUnreads (st : TrackerState) (userId : String) : UnreadEntry :=
  (mapGet st.unreads userId).getD ⟨none, [], 0⟩

/-- A tracker operation: a push event, a poll tick with its fetched batch, or
a mark-read call. -/
inductive Op where
  | push (msg : TelegramMessage)
  | poll (connected : Bool) (batch : List (TelegramDialog × List TelegramMessage))
  | markRead (userId : String)
deriving Repr

/-- The tracker's step function over operations. -/
def step (wl : List String) (st : TrackerState) : Op → TrackerState × List TrackerEvent
  | Op.push msg => _handleNewMessage wl st msg
  | Op.poll connected batch => pollTick wl connected st batch
  | Op.markRead userId => markRead st userId

/-- Run a sequence of tracker operations from a state. -/
def run (wl : List String) (st : TrackerState) (ops : List Op) : TrackerState :=
  ops.foldl (fun s op => (step wl s op).1) st

end Tracker

namespace Daemon

/-- The Connection Supervisor's connectivity bookkeeping (daemon.js
`DaemonClient`): the `connected` flag and the reconnect attempt counter. -/
structure DaemonState where
  connected : Bool
  reconnectAttempts : Nat
deriving DecidableEq, Repr

/-- `maxReconnectDelay` from the constructor. -/
def maxReconnectDelay : Nat := 30000

/-- The notifications the supervisor emits that the claims mention. -/
inductive DEvent where
  | connectionChanged (connected : Bool)
  | wsConnected
  | wsDisconnected
  | scheduled (delay : Nat)
  | genericEvent
  | typedEvent (t : String)
deriving DecidableEq, Repr

/-- `_scheduleReconnect()`: compute the backoff delay from the current
attempt counter, then increment the counter; returns the delay the timer was
armed with. -/
def _scheduleReconnect (st : DaemonState) : DaemonState × Nat :=
  let delay := min (1000 * 2 ^ st.reconnectAttempts) maxReconnectDelay
  ({ st with reconnectAttempts := st.reconnectAttempts + 1 }, delay)

/-- The supervisor operations the claims quantify over: the two `getHealth`
outcomes, the thin request wrappers (which swallow failures and never touch
connectivity state), and the WebSocket handlers of `connectWS`.  `wsMessage`
carries the parse outcome of the inbound frame: `none` for a parse failure,
`some t` for a parsed frame whose optional `type` field is `t`. -/
inductive DaemonOp where
  | healthOk
  | healthFail
  | getMe
  | getDialogs
  | getMessages
  | sendMessage
  | markReadReq
  | getProfilePhoto
  | wsOpen
  | wsMessage (parsed : Option (Option String))
  | wsClose
  | wsError
  | scheduleReconnect
deriving DecidableEq, Repr

/-- The supervisor's step function: which state change and which emissions
each operation performs in daemon.js. -/
def daemonStep (st : DaemonState) : DaemonOp → DaemonState × List DEvent
  | DaemonOp.healthOk =>
    ({ st with connected := true }, [DEvent.connectionChanged true])
  | DaemonOp.healthFail =>
    ({ st with connected := false }, [DEvent.connectionChanged false])
  | DaemonOp.getMe => (st, [])
  | DaemonOp.getDialogs => (st, [])
  | DaemonOp.getMessages => (st, [])
  | DaemonOp.sendMessage => (st, [])
  | DaemonOp.markReadReq => (st, [])
  | DaemonOp.getProfilePhoto => (st, [])
  | DaemonOp.wsOpen =>
    ({ connected := true, reconnectAttempts := 0 },
     [DEvent.connectionChanged true, DEvent.wsConnected])
  | DaemonOp.wsMessage parsed =>
    (st,
     match parsed with
     | none => []
     | some none => [DEvent.genericEvent]
     | some (some t) => [DEvent.genericEvent, DEvent.typedEvent t])
  | DaemonOp.wsClose =>
    let r := _scheduleReconnect { st with connected := false }
    (r.1, [DEvent.connectionChanged false, DEvent.wsDisconnected,
           DEvent.scheduled r.2])
  | DaemonOp.wsError => (st, [])
  | DaemonOp.scheduleReconnect =>
    let r := _scheduleReconnect st
    (r.1, [DEvent.scheduled r.2])

/-- Iterate `_scheduleReconnect` `n` times, collecting the armed delays in
order. -/
def iterSchedule : DaemonState → Nat → DaemonState × List Nat
  | st, 0 => (st, [])
  | st, n + 1 =>
    let r := _scheduleReconnect st
    let rest := iterSchedule r.1 n
    (rest.1, r.2 :: rest.2)

end Daemon

namespace Bubbles

/-- Constants at the top of bubbles.js. -/
def BUBBLE_SIZE : Int := 64

def BUBBLE_GAP : Int := 12

def EDGE_MARGIN : Int := 20

def MAX_BUBBLES : Nat := 5

/-- A bubble window's position. -/
structure Bubble where
  x : Int
  y : Int
deriving DecidableEq, Repr

/-- The settings fields the pool consults; `maxBubbles` is carried to state
claims about the configured cap. -/
structure Settings where
  bubblePosition : String
  maxBubbles : Nat
deriving DecidableEq, Repr

/-- The pool state: the `bubbles` map (userId to window) in insertion order,
plus the global visibility flag. -/
structure BubbleState where
  bubbles : List (String × Bubble)
  visible : Bool
deriving DecidableEq, Repr

/-- The window-level effects of a pool operation. -/
inductive BubbleEffect where
  | created (userId : String) (x y : Int)
  | updated (userId : String) (count : Nat)
  | closed (userId : String)
deriving DecidableEq, Repr

/-- The `settings.bubblePosition || 'right'` fallback. -/
def positionOf (settings : Settings) : String :=
  if settings.bubblePosition == "" then "right" else settings.bubblePosition

/-- The x coordinate for the configured edge. -/
def edgeX (screenW : Int) (position : String) : Int :=
  if position == "right" then screenW - BUBBLE_SIZE - EDGE_MARGIN
  else EDGE_MARGIN

/-- `createBubble(userId, unreadCount)`: update in place when a window
exists, refuse at the `MAX_BUBBLES` cap, otherwise create at the next slot
(`index = bubbles.size`). -/
def createBubble (screenW : Int) (settings : Settings) (st : BubbleState)
    (userId : String) (count : Nat) : BubbleState × List BubbleEffect :=
  if mapHas st.bubbles userId then (st, [BubbleEffect.updated userId count])
  else if MAX_BUBBLES ≤ st.bubbles.length then (st, [])
  else
    let index : Int := st.bubbles.length
    let x := edgeX screenW (positionOf settings)
    let y := 100 + index * (BUBBLE_SIZE + BUBBLE_GAP)
    ({ st with bubbles := mapSet st.bubbles userId ⟨x, y⟩ },
     [BubbleEffect.created userId x y])

/-- `removeBubble(userId)`: close the window when present, delete the map
entry; no repositioning of the remaining windows. -/
def removeBubble (st : BubbleState) (userId : String) :
    BubbleState × List BubbleEffect :=
  ({ st with bubbles := mapDelete st.bubbles userId },
   if mapHas st.bubbles userId then [BubbleEffect.closed userId] else [])

/-- The slot-assignment loop of `repositionAll()`: consecutive indices in
map iteration order. -/
def assignSlots (screenW : Int) (position : String) (index : Nat) :
    List (String × Bubble) → List (String × Bubble)
  | [] => []
  | p :: rest =>
    (p.1, ⟨edgeX screenW position, 100 + (index : Int) * (BUBBLE_SIZE + BUBBLE_GAP)⟩)
      :: assignSlots screenW position (index + 1) rest

/-- `repositionAll()`. -/
def repositionAll (screenW : Int) (settings : Settings) (st : BubbleState) :
    BubbleState :=
  { st with bubbles := assignSlots screenW (positionOf settings) 0 st.bubbles }

/-- `handleUnreadsChanged(userId, count)`. -/
def handleUnreadsChanged (screenW : Int) (settings : Settings)
    (st : BubbleState) (userId : String) (count : Nat) :
    BubbleState × List BubbleEffect :=
  if 0 < count then createBubble screenW settings st userId count
  else removeBubble st userId

/-- The `update-settings` IPC handler in main.ts: merge the partial settings,
then call `repositionAll()` exactly when the update carries a
`bubblePosition` value. -/
def updateSettingsApply (screenW : Int) (settings : Settings)
    (newBubblePosition : Option String) (st : BubbleState) : BubbleState :=
  match newBubblePosition with
  | some p => repositionAll screenW { settings with bubblePosition := p } st
  | none => st

/-- Run a sequence of unread-changed events through the pool. -/
def runEvents (screenW : Int) (settings : Settings) (st : BubbleState)
    (events : List (String × Nat)) : BubbleState :=
  events.foldl
    (fun s ev => (handleUnreadsChanged screenW settings s ev.1 ev.2).1) st

end Bubbles

namespace Tracker

/-- The ledger-row invariant of the spec: the stored count equals the number
of buffered messages, and no two buffered messages share an id. -/
def entryOk (e : UnreadEntry) : Prop :=
  e.count = e.messages.length ∧ (e.messages.map (fun m => m.id)).Nodup

/-- Every row of the ledger satisfies `entryOk`. -/
def Inv (st : TrackerState) : Prop :=
  ∀ u e, mapGet st.unreads u = some e → entryOk e

end Tracker

namespace Tracker

lemma _addUnread_lastSeen (st : TrackerState) (u d : String)
    (m : TelegramMessage) :
    ((_addUnread st u d m).1).lastSeenIds = st.lastSeenIds := by
  unfold _addUnread
  simp only []
  split
  · rfl
  · split
    · rfl
    · rfl

lemma _addUnread_of_dup (st : TrackerState) (u d : String)
    (m : TelegramMessage) (e : UnreadEntry)
    (he : mapGet st.unreads u = some e)
    (hdup : e.messages.any (fun x => x.id == m.id) = true) :
    _addUnread st u d m = (st, []) := by
  have hhas : mapHas st.unreads u = true := mapGet_some_has _ _ _ he
  simp [_addUnread, hhas, he, hdup]

lemma _addUnread_mem (st : TrackerState) (u d : String)
    (m : TelegramMessage) :
    ∃ e, mapGet ((_addUnread st u d m).1).unreads u = some e ∧
      e.messages.any (fun x => x.id == m.id) = true := by
  by_cases hhas : mapHas st.unreads u
  · obtain ⟨e, he⟩ := (mapHas_true_iff st.unreads u).mp hhas
    by_cases hdup : e.messages.any (fun x => x.id == m.id) = true
    · refine ⟨e, ?_, hdup⟩
      rw [_addUnread_of_dup st u d m e he hdup]
      exact he
    · refine ⟨⟨some d, e.messages ++ [m], (e.messages ++ [m]).length⟩, ?_, ?_⟩
      · simp [_addUnread, hhas, he, hdup, mapGet_set_eq]
      · simp
  · refine ⟨⟨some d, [m], 1⟩, ?_, ?_⟩
    · simp [_addUnread, hhas, mapGet_set_eq]
    · simp

lemma _addUnread_idem (st : TrackerState) (u d d2 : String)
    (m : TelegramMessage) :
    _addUnread ((_addUnread st u d m).1) u d2 m
      = ((_addUnread st u d m).1, []) := by
  obtain ⟨e, he, hdup⟩ := _addUnread_mem st u d m
  exact _addUnread_of_dup _ u d2 m e he hdup

end Tracker

/-- Claim C1: acceptance into a contact's unread ledger is idempotent.
Both the push path and the poll path accept through `_addUnread`; accepting
the same message a second time (with any dialog id) leaves the ledger —
messages sequence and count alike — unchanged and emits no notifications,
and a message whose id is already buffered for that contact is never appended
and its duplicate attempt emits nothing. -/
theorem claimC1_acceptance_idempotent :
    ∀ (st : Tracker.TrackerState) (u d d2 : String) (m : TelegramMessage),
      (Tracker._addUnread ((Tracker._addUnread st u d m).1) u d2 m
        = ((Tracker._addUnread st u d m).1, [])) ∧
      (∀ e, mapGet st.unreads u = some e →
        e.messages.any (fun x => x.id == m.id) = true →
        Tracker._addUnread st u d m = (st, [])) := by
  intro st u d d2 m
  exact ⟨Tracker._addUnread_idem st u d d2 m,
    fun e he hdup => Tracker._addUnread_of_dup st u d m e he hdup⟩

/-- Witness for claim C1 at a concrete ledger: a contact with message id 7
buffered; re-accepting the same message is a silent no-op. -/
theorem claimC1_witness :
    Tracker._addUnread
        ⟨[("42", ⟨some "d1",
            [⟨7, JsVal.str "42", JsVal.undef, JsVal.str "d1", JsVal.undef⟩], 1⟩)], []⟩
        "42" "d1"
        ⟨7, JsVal.str "42", JsVal.undef, JsVal.str "d1", JsVal.undef⟩
      = (⟨[("42", ⟨some "d1",
            [⟨7, JsVal.str "42", JsVal.undef, JsVal.str "d1", JsVal.undef⟩], 1⟩)], []⟩,
         []) :=
  (claimC1_acceptance_idempotent
      ⟨[("42", ⟨some "d1",
          [⟨7, JsVal.str "42", JsVal.undef, JsVal.str "d1", JsVal.undef⟩], 1⟩)], []⟩
      "42" "d1" "d1"
      ⟨7, JsVal.str "42", JsVal.undef, JsVal.str "d1", JsVal.undef⟩).2
    ⟨some "d1", [⟨7, JsVal.str "42", JsVal.undef, JsVal.str "d1", JsVal.undef⟩], 1⟩
    (by decide) (by decide)

/-- Claim C10: `getUnreads(userId)` for a userId with no ledger row totally
returns the empty entry `{dialogId: null, messages: [], count: 0}`; the read
is embedded as a pure function because `Map.get` does not mutate the
ledger. -/
theorem claimC10_getUnreads_total :
    ∀ (st : Tracker.TrackerState) (u : String),
      mapGet st.unreads u = none →
      Tracker.getUnreads st u = ⟨none, [], 0⟩ := by
  intro st u h
  simp [Tracker.getUnreads, h]

/-- Witness for claim C10 at the empty tracker state. -/
theorem claimC10_witness :
    Tracker.getUnreads ⟨[], [("d1", 10)]⟩ "7" = ⟨none, [], 0⟩ :=
  claimC10_getUnreads_total ⟨[], [("d1", 10)]⟩ "7" (by decide)

namespace Tracker

lemma pollNewMsgs_mem (st : TrackerState) (dialogId userId : String)
    (msgs : List TelegramMessage) (m : TelegramMessage) :
    m ∈ pollNewMsgs st dialogId userId msgs ↔
      ∃ w, mapGet st.lastSeenIds dialogId = some w ∧ w ≠ 0 ∧
        m ∈ msgs ∧ w < m.id ∧ (m.fromId.jsOr m.senderId).toStr = userId := by
  unfold pollNewMsgs
  cases hw : mapGet st.lastSeenIds dialogId with
  | none => simp
  | some w =>
    by_cases h0 : w = 0
    · subst h0
      simp
    · simp [h0, List.mem_filter, and_assoc]

lemma pollNewMsgs_none (st : TrackerState) (dialogId userId : String)
    (msgs : List TelegramMessage)
    (h : mapGet st.lastSeenIds dialogId = none) :
    pollNewMsgs st dialogId userId msgs = [] := by
  simp [pollNewMsgs, h]

lemma pollDialog_no_watermark (wl : List String)
    (acc : TrackerState × List TrackerEvent) (d : TelegramDialog)
    (msgs : List TelegramMessage)
    (h : mapGet acc.1.lastSeenIds (d.id.toStr) = none) :
    pollDialog wl acc d msgs = acc := by
  have hpoll := pollNewMsgs_none acc.1 (d.id.toStr)
    ((d.userId.jsOr d.id).toStr) msgs h
  unfold pollDialog
  by_cases hwl : isWhitelisted wl ((d.userId.jsOr d.id).toStr)
  · by_cases hemp : msgs.isEmpty
    · simp [hwl, hemp]
    · simp [hwl, hemp, hpoll]
  · simp [hwl]

end Tracker

/-- Claim C3 counterexample: a dialog with the stored watermark `0` (an
entry the claim calls "a stored watermark") and a fetched message of id 5
from the whitelisted contact.  The claim requires the message to be accepted
(5 exceeds 0 and the sender matches), but the code's `lastSeen ? ... : []`
treats the stored `0` as missing and accepts nothing, ledger included. -/
theorem claimC3_counterexample :
    mapGet (Tracker.TrackerState.mk [] [("d1", 0)]).lastSeenIds "d1" = some 0 ∧
    ((0 : Int) < 5) ∧
    (((JsVal.str "42").jsOr JsVal.undef).toStr = "42") ∧
    Tracker.pollNewMsgs ⟨[], [("d1", 0)]⟩ "d1" "42"
        [⟨5, JsVal.str "42", JsVal.undef, JsVal.str "d1", JsVal.undef⟩] = [] ∧
    (Tracker.pollDialog ["42"] (⟨[], [("d1", 0)]⟩, [])
        ⟨JsVal.str "d1", JsVal.str "42"⟩
        [⟨5, JsVal.str "42", JsVal.undef, JsVal.str "d1", JsVal.undef⟩]).1.unreads
      = [] := by
  refine ⟨by decide, by decide, by decide, by decide, by decide⟩

/-- Claim C3 as amended: on a poll tick, for a dialog of a whitelisted
contact, a fetched message is selected for ledger acceptance if and only if
the dialog has a stored watermark that is nonzero, the message id strictly
exceeds it, and the resolved sender key equals the contact's userId; when the
stored watermark is absent — or equals `0`, which JavaScript truthiness makes
indistinguishable from absent — the poll path accepts nothing for that
dialog. -/
theorem claimC3_amended_poll_selection :
    ∀ (st : Tracker.TrackerState) (dialogId userId : String)
      (msgs : List TelegramMessage),
      (∀ m, m ∈ Tracker.pollNewMsgs st dialogId userId msgs ↔
        ∃ w, mapGet st.lastSeenIds dialogId = some w ∧ w ≠ 0 ∧
          m ∈ msgs ∧ w < m.id ∧ (m.fromId.jsOr m.senderId).toStr = userId) ∧
      (mapGet st.lastSeenIds dialogId = none →
        Tracker.pollNewMsgs st dialogId userId msgs = []) ∧
      (∀ wl evs d, d.id.toStr = dialogId →
        mapGet st.lastSeenIds dialogId = none →
        Tracker.pollDialog wl (st, evs) d msgs = (st, evs)) := by
  intro st dialogId userId msgs
  refine ⟨fun m => Tracker.pollNewMsgs_mem st dialogId userId msgs m,
    fun h => Tracker.pollNewMsgs_none st dialogId userId msgs h,
    fun wl evs d hd h => ?_⟩
  exact Tracker.pollDialog_no_watermark wl (st, evs) d msgs (by rw [hd]; exact h)

/-- Witness for the amended claim C3: with watermark 6 stored for `"d1"`,
the poll keeps exactly the matching message with id 7, and a dialog with no
stored watermark contributes nothing. -/
theorem claimC3_witness :
    (⟨7, JsVal.str "42", JsVal.undef, JsVal.str "d1", JsVal.undef⟩
        ∈ Tracker.pollNewMsgs ⟨[], [("d1", 6)]⟩ "d1" "42"
          [⟨7, JsVal.str "42", JsVal.undef, JsVal.str "d1", JsVal.undef⟩]) ∧
    Tracker.pollNewMsgs ⟨[], []⟩ "d1" "42"
        [⟨7, JsVal.str "42", JsVal.undef, JsVal.str "d1", JsVal.undef⟩] = [] :=
  ⟨((claimC3_amended_poll_selection ⟨[], [("d1", 6)]⟩ "d1" "42"
        [⟨7, JsVal.str "42", JsVal.undef, JsVal.str "d1", JsVal.undef⟩]).1
      ⟨7, JsVal.str "42", JsVal.undef, JsVal.str "d1", JsVal.undef⟩).mpr
    ⟨6, by decide, by decide, by decide, by decide, by decide⟩,
   (claimC3_amended_poll_selection ⟨[], []⟩ "d1" "42"
        [⟨7, JsVal.str "42", JsVal.undef, JsVal.str "d1", JsVal.undef⟩]).2.1
    (by decide)⟩

namespace Tracker

lemma markRead_eq_of_entry (st : TrackerState) (u : String)
    (e : UnreadEntry) (latest : TelegramMessage)
    (he : mapGet st.unreads u = some e)
    (hlast : e.messages.getLast? = some latest) :
    markRead st u
      = (⟨mapDelete st.unreads u,
          mapSet st.lastSeenIds (dialogKey e) latest.id⟩,
         [TrackerEvent.messagesRead u, TrackerEvent.unreadsChanged u 0]) := by
  simp [markRead, he, hlast]

lemma _handleNewMessage_lastSeen (wl : List String) (st : TrackerState)
    (m : TelegramMessage) :
    ((_handleNewMessage wl st m).1).lastSeenIds = st.lastSeenIds := by
  unfold _handleNewMessage
  by_cases h1 : (((m.fromId.jsOr m.senderId).jsOr (JsVal.str "")).toStr) == ""
  · simp [h1]
  · by_cases h2 :
      isWhitelisted wl (((m.fromId.jsOr m.senderId).jsOr (JsVal.str "")).toStr)
    · simp [h1, h2, _addUnread_lastSeen]
    · simp [h1, h2]

lemma foldl_addUnread_lastSeen (u d : String) (msgs : List TelegramMessage) :
    ∀ acc : TrackerState × List TrackerEvent,
      ((msgs.foldl
          (fun a msg =>
            let r := _addUnread a.1 u d msg
            (r.1, a.2 ++ r.2)) acc).1).lastSeenIds = acc.1.lastSeenIds := by
  induction msgs with
  | nil => intro acc; rfl
  | cons x rest ih =>
    intro acc
    rw [List.foldl_cons, ih]
    exact _addUnread_lastSeen acc.1 u d x

lemma pollDialog_lastSeen (wl : List String)
    (acc : TrackerState × List TrackerEvent) (d : TelegramDialog)
    (msgs : List TelegramMessage) :
    ((pollDialog wl acc d msgs).1).lastSeenIds = acc.1.lastSeenIds := by
  unfold pollDialog
  by_cases hwl : isWhitelisted wl ((d.userId.jsOr d.id).toStr)
  · by_cases hemp : msgs.isEmpty
    · simp [hwl, hemp]
    · simp only [hwl, hemp, not_true, Bool.not_eq_true, if_neg, if_false]
      simp [foldl_addUnread_lastSeen]
  · simp [hwl]

lemma foldl_pollDialog_lastSeen (wl : List String)
    (batch : List (TelegramDialog × List TelegramMessage)) :
    ∀ acc : TrackerState × List TrackerEvent,
      ((batch.foldl (fun acc p => pollDialog wl acc p.1 p.2) acc).1).lastSeenIds
        = acc.1.lastSeenIds := by
  induction batch with
  | nil => intro acc; rfl
  | cons x rest ih =>
    intro acc
    rw [List.foldl_cons, ih]
    exact pollDialog_lastSeen wl acc x.1 x.2

lemma pollTick_lastSeen (wl : List String) (connected : Bool)
    (st : TrackerState)
    (batch : List (TelegramDialog × List TelegramMessage)) :
    ((pollTick wl connected st batch).1).lastSeenIds = st.lastSeenIds := by
  unfold pollTick
  by_cases hc : connected
  · simp only [hc]
    simpa using foldl_pollDialog_lastSeen wl batch (st, [])
  · simp [hc]

end Tracker

/-- Claim C4: `markRead(userId)` with no ledger row is a complete no-op that
emits nothing; with a row whose buffer ends in `latest`, it stores
`latest.id` as the watermark of the entry's dialog key, deletes the row (so
the entry is absent and `getUnreads` reports count 0 immediately after),
emits the zero-count change notification, and a subsequent poll of that
dialog can only select messages with id strictly above `latest.id`, so the
same message is never re-accepted. -/
theorem claimC4_markRead :
    ∀ (st : Tracker.TrackerState) (u : String),
      (mapGet st.unreads u = none → Tracker.markRead st u = (st, [])) ∧
      (∀ e latest, mapGet st.unreads u = some e →
        e.messages.getLast? = some latest →
        mapGet ((Tracker.markRead st u).1).lastSeenIds (Tracker.dialogKey e)
            = some latest.id ∧
        mapGet ((Tracker.markRead st u).1).unreads u = none ∧
        Tracker.getUnreads ((Tracker.markRead st u).1) u = ⟨none, [], 0⟩ ∧
        Tracker.TrackerEvent.unreadsChanged u 0 ∈ (Tracker.markRead st u).2 ∧
        (∀ uid msgs m2,
          m2 ∈ Tracker.pollNewMsgs ((Tracker.markRead st u).1)
              (Tracker.dialogKey e) uid msgs →
          latest.id < m2.id)) := by
  intro st u
  constructor
  · intro h
    simp [Tracker.markRead, h]
  · intro e latest he hlast
    rw [Tracker.markRead_eq_of_entry st u e latest he hlast]
    refine ⟨mapGet_set_eq _ _ _, mapGet_delete_eq _ _, ?_, by simp, ?_⟩
    · simp [Tracker.getUnreads, mapGet_delete_eq]
    · intro uid msgs m2 hm
      rw [Tracker.pollNewMsgs_mem] at hm
      obtain ⟨w, hw, hw0, _, hlt, _⟩ := hm
      have hws : w = latest.id := by
        have := mapGet_set_eq st.lastSeenIds (Tracker.dialogKey e) latest.id
        rw [this] at hw
        exact (Option.some_injective _ hw).symm
      rw [hws] at hlt
      exact hlt

/-- Witness for claim C4: one buffered message of id 7 for contact "42";
marking read stores watermark 7, empties the row, and emits count 0. -/
theorem claimC4_witness :
    mapGet ((Tracker.markRead
        ⟨[("42", ⟨some "d1",
            [⟨7, JsVal.str "42", JsVal.undef, JsVal.str "d1", JsVal.undef⟩], 1⟩)],
          []⟩ "42").1).lastSeenIds "d1" = some 7 ∧
    mapGet ((Tracker.markRead
        ⟨[("42", ⟨some "d1",
            [⟨7, JsVal.str "42", JsVal.undef, JsVal.str "d1", JsVal.undef⟩], 1⟩)],
          []⟩ "42").1).unreads "42" = none :=
  ⟨((claimC4_markRead
      ⟨[("42", ⟨some "d1",
          [⟨7, JsVal.str "42", JsVal.undef, JsVal.str "d1", JsVal.undef⟩], 1⟩)],
        []⟩ "42").2
      ⟨some "d1", [⟨7, JsVal.str "42", JsVal.undef, JsVal.str "d1", JsVal.undef⟩], 1⟩
      ⟨7, JsVal.str "42", JsVal.undef, JsVal.str "d1", JsVal.undef⟩
      (by decide) (by decide)).1,
   ((claimC4_markRead
      ⟨[("42", ⟨some "d1",
          [⟨7, JsVal.str "42", JsVal.undef, JsVal.str "d1", JsVal.undef⟩], 1⟩)],
        []⟩ "42").2
      ⟨some "d1", [⟨7, JsVal.str "42", JsVal.undef, JsVal.str "d1", JsVal.undef⟩], 1⟩
      ⟨7, JsVal.str "42", JsVal.undef, JsVal.str "d1", JsVal.undef⟩
      (by decide) (by decide)).2.1⟩

/-- Claim C2 counterexample: with the persisted watermark of dialog "d1" at
10, a push acceptance of the old message id 3 (the push path never consults
watermarks) followed by `markRead` stores watermark 3 — strictly below the
previous 10, refuting "a watermark is only ever advanced, never lowered". -/
theorem claimC2_counterexample :
    mapGet (Tracker.run ["42"] ⟨[], [("d1", 10)]⟩
        [Tracker.Op.push ⟨3, JsVal.str "42", JsVal.undef, JsVal.str "d1",
          JsVal.undef⟩]).lastSeenIds "d1" = some 10 ∧
    mapGet (Tracker.run ["42"] ⟨[], [("d1", 10)]⟩
        [Tracker.Op.push ⟨3, JsVal.str "42", JsVal.undef, JsVal.str "d1",
          JsVal.undef⟩,
         Tracker.Op.markRead "42"]).lastSeenIds "d1" = some 3 ∧
    (3 : Int) < 10 := by
  refine ⟨by decide, by decide, by decide⟩

/-- Claim C2 as amended: acceptance (push or poll) never changes any
watermark; the only watermark write is `markRead`, which sets the entry's
dialog key to the id of the chronologically last buffered message — possibly
strictly below the stored value — and leaves every other key unchanged;
watermarks are non-decreasing exactly when each such written id is at least
the stored watermark. -/
theorem claimC2_amended_watermark :
    (∀ wl st m k,
      mapGet ((Tracker.step wl st (Tracker.Op.push m)).1).lastSeenIds k
        = mapGet st.lastSeenIds k) ∧
    (∀ wl st c batch k,
      mapGet ((Tracker.step wl st (Tracker.Op.poll c batch)).1).lastSeenIds k
        = mapGet st.lastSeenIds k) ∧
    (∀ st u e latest, mapGet st.unreads u = some e →
      e.messages.getLast? = some latest →
      mapGet ((Tracker.markRead st u).1).lastSeenIds (Tracker.dialogKey e)
          = some latest.id ∧
      (∀ k, k ≠ Tracker.dialogKey e →
        mapGet ((Tracker.markRead st u).1).lastSeenIds k
          = mapGet st.lastSeenIds k) ∧
      (∀ w, mapGet st.lastSeenIds (Tracker.dialogKey e) = some w →
        w ≤ latest.id →
        ∀ k w2, mapGet st.lastSeenIds k = some w2 →
          ∃ w3, mapGet ((Tracker.markRead st u).1).lastSeenIds k = some w3 ∧
            w2 ≤ w3)) := by
  refine ⟨?_, ?_, ?_⟩
  · intro wl st m k
    show mapGet ((Tracker._handleNewMessage wl st m).1).lastSeenIds k
      = mapGet st.lastSeenIds k
    rw [Tracker._handleNewMessage_lastSeen]
  · intro wl st c batch k
    show mapGet ((Tracker.pollTick wl c st batch).1).lastSeenIds k
      = mapGet st.lastSeenIds k
    rw [Tracker.pollTick_lastSeen]
  · intro st u e latest he hlast
    rw [Tracker.markRead_eq_of_entry st u e latest he hlast]
    refine ⟨mapGet_set_eq _ _ _, fun k hk => mapGet_set_ne _ _ _ _ hk, ?_⟩
    intro w hw hwle k w2 hk2
    by_cases hkd : k = Tracker.dialogKey e
    · subst hkd
      refine ⟨latest.id, mapGet_set_eq _ _ _, ?_⟩
      rw [hk2] at hw
      have : w2 = w := Option.some_injective _ hw
      rw [this]
      exact hwle
    · exact ⟨w2, by rw [mapGet_set_ne _ _ _ _ hkd]; exact hk2, le_refl w2⟩

/-- Witness for the amended claim C2: a push acceptance leaves the stored
watermark 10 untouched, and marking the buffered message 12 read advances
the watermark from 10 to 12. -/
theorem claimC2_witness :
    mapGet ((Tracker.step ["42"] ⟨[], [("d1", 10)]⟩
        (Tracker.Op.push ⟨12, JsVal.str "42", JsVal.undef, JsVal.str "d1",
          JsVal.undef⟩)).1).lastSeenIds "d1" = some 10 ∧
    mapGet ((Tracker.markRead
        ⟨[("42", ⟨some "d1",
            [⟨12, JsVal.str "42", JsVal.undef, JsVal.str "d1", JsVal.undef⟩], 1⟩)],
          [("d1", 10)]⟩ "42").1).lastSeenIds "d1" = some 12 :=
  ⟨claimC2_amended_watermark.1 ["42"] ⟨[], [("d1", 10)]⟩
      ⟨12, JsVal.str "42", JsVal.undef, JsVal.str "d1", JsVal.undef⟩ "d1",
   (claimC2_amended_watermark.2.2
      ⟨[("42", ⟨some "d1",
          [⟨12, JsVal.str "42", JsVal.undef, JsVal.str "d1", JsVal.undef⟩], 1⟩)],
        [("d1", 10)]⟩ "42"
      ⟨some "d1", [⟨12, JsVal.str "42", JsVal.undef, JsVal.str "d1", JsVal.undef⟩], 1⟩
      ⟨12, JsVal.str "42", JsVal.undef, JsVal.str "d1", JsVal.undef⟩
      (by decide) (by decide)).1⟩

namespace Tracker

lemma Inv_addUnread (st : TrackerState) (u d : String) (m : TelegramMessage)
    (h : Inv st) : Inv (_addUnread st u d m).1 := by
  by_cases hhas : mapHas st.unreads u
  · obtain ⟨e, he⟩ := (mapHas_true_iff _ _).mp hhas
    by_cases hdup : e.messages.any (fun x => x.id == m.id) = true
    · rw [_addUnread_of_dup st u d m e he hdup]
      exact h
    · have hdupf : e.messages.any (fun x => x.id == m.id) = false := by
        simpa using hdup
      have hres : ((_addUnread st u d m).1).unreads
          = mapSet st.unreads u
              ⟨some d, e.messages ++ [m], (e.messages ++ [m]).length⟩ := by
        simp [_addUnread, hhas, he, hdupf]
      intro u2 e2 hg
      rw [hres] at hg
      by_cases hu : u2 = u
      · subst hu
        rw [mapGet_set_eq] at hg
        cases hg
        refine ⟨rfl, ?_⟩
        rw [List.map_append]
        rw [List.nodup_append]
        refine ⟨(h u2 e he).2, by simp, ?_⟩
        intro a ha hb
        simp only [List.map_cons, List.map_nil, List.mem_singleton] at hb
        subst hb
        obtain ⟨x, hx, hxid⟩ := List.mem_map.mp ha
        have hne := List.any_eq_false.mp hdupf x hx
        rw [hxid] at hne
        simp at hne
      · rw [mapGet_set_ne _ _ _ _ hu] at hg
        exact h u2 e2 hg
  · have hres : ((_addUnread st u d m).1).unreads
        = mapSet (mapSet st.unreads u ⟨some d, [], 0⟩) u ⟨some d, [m], 1⟩ := by
      simp [_addUnread, hhas, mapGet_set_eq]
    intro u2 e2 hg
    rw [hres] at hg
    by_cases hu : u2 = u
    · subst hu
      rw [mapGet_set_eq] at hg
      cases hg
      exact ⟨rfl, by simp⟩
    · rw [mapGet_set_ne _ _ _ _ hu, mapGet_set_ne _ _ _ _ hu] at hg
      exact h u2 e2 hg

lemma Inv_handleNewMessage (wl : List String) (st : TrackerState)
    (m : TelegramMessage) (h : Inv st) :
    Inv (_handleNewMessage wl st m).1 := by
  unfold _handleNewMessage
  by_cases h1 : (((m.fromId.jsOr m.senderId).jsOr (JsVal.str "")).toStr) == ""
  · simpa [h1] using h
  · by_cases h2 :
      isWhitelisted wl (((m.fromId.jsOr m.senderId).jsOr (JsVal.str "")).toStr)
    · simpa [h1, h2] using Inv_addUnread st _ _ m h
    · simpa [h1, h2] using h

lemma Inv_foldl_addUnread (u d : String) (msgs : List TelegramMessage) :
    ∀ acc : TrackerState × List TrackerEvent, Inv acc.1 →
      Inv ((msgs.foldl
        (fun a msg =>
          let r := _addUnread a.1 u d msg
          (r.1, a.2 ++ r.2)) acc).1) := by
  induction msgs with
  | nil => intro acc h; exact h
  | cons x rest ih =>
    intro acc h
    rw [List.foldl_cons]
    exact ih _ (Inv_addUnread acc.1 u d x h)

lemma Inv_pollDialog (wl : List String)
    (acc : TrackerState × List TrackerEvent) (d : TelegramDialog)
    (msgs : List TelegramMessage) (h : Inv acc.1) :
    Inv (pollDialog wl acc d msgs).1 := by
  unfold pollDialog
  by_cases hwl : isWhitelisted wl ((d.userId.jsOr d.id).toStr)
  · by_cases hemp : msgs.isEmpty
    · simpa [hwl, hemp] using h
    · simp only [hwl, hemp, not_true, Bool.not_eq_true, if_neg, if_false]
      simpa using Inv_foldl_addUnread _ _ _ acc h
  · simpa [hwl] using h

lemma Inv_pollTick (wl : List String) (connected : Bool) (st : TrackerState)
    (batch : List (TelegramDialog × List TelegramMessage)) (h : Inv st) :
    Inv (pollTick wl connected st batch).1 := by
  unfold pollTick
  by_cases hc : connected
  · simp only [hc, not_true, Bool.not_eq_true, if_neg, if_false]
    have hgen : ∀ (b : List (TelegramDialog × List TelegramMessage))
        (acc : TrackerState × List TrackerEvent), Inv acc.1 →
        Inv ((b.foldl (fun acc p => pollDialog wl acc p.1 p.2) acc).1) := by
      intro b
      induction b with
      | nil => intro acc ha; exact ha
      | cons x rest ih =>
        intro acc ha
        rw [List.foldl_cons]
        exact ih _ (Inv_pollDialog wl acc x.1 x.2 ha)
    simpa using hgen batch (st, []) h
  · simpa [hc] using h

lemma Inv_markRead (st : TrackerState) (u : String) (h : Inv st) :
    Inv (markRead st u).1 := by
  cases he : mapGet st.unreads u with
  | none =>
    simpa [markRead, he] using h
  | some e =>
    cases hlast : e.messages.getLast? with
    | none =>
      have hres : ((markRead st u).1).unreads = mapDelete st.unreads u := by
        simp [markRead, he, hlast]
      intro u2 e2 hg
      rw [hres] at hg
      by_cases hu : u2 = u
      · subst hu
        rw [mapGet_delete_eq] at hg
        cases hg
      · rw [mapGet_delete_ne _ _ _ hu] at hg
        exact h u2 e2 hg
    | some latest =>
      rw [markRead_eq_of_entry st u e latest he hlast]
      intro u2 e2 hg
      by_cases hu : u2 = u
      · subst hu
        rw [mapGet_delete_eq] at hg
        cases hg
      · rw [mapGet_delete_ne _ _ _ hu] at hg
        exact h u2 e2 hg

lemma Inv_step (wl : List String) (st : TrackerState) (op : Op)
    (h : Inv st) : Inv (step wl st op).1 := by
  cases op with
  | push m => exact Inv_handleNewMessage wl st m h
  | poll c batch => exact Inv_pollTick wl c st batch h
  | markRead u => exact Inv_markRead st u h

end Tracker

/-- Claim C5: every tracker operation — push acceptance, poll acceptance and
mark-read — preserves the ledger invariant that each row's count equals the
length of its messages and that no two buffered messages of a row share an
id; consequently every state reached from a start state (empty ledger, any
loaded watermark file) satisfies it. -/
theorem claimC5_ledger_invariant :
    (∀ wl st op, Tracker.Inv st → Tracker.Inv (Tracker.step wl st op).1) ∧
    (∀ wl ls ops, Tracker.Inv (Tracker.run wl ⟨[], ls⟩ ops)) := by
  constructor
  · exact Tracker.Inv_step
  · intro wl ls ops
    have hbase : Tracker.Inv ⟨[], ls⟩ := by
      intro u e hg
      simp [mapGet] at hg
    have hgen : ∀ (l : List Tracker.Op) (st : Tracker.TrackerState),
        Tracker.Inv st → Tracker.Inv (Tracker.run wl st l) := by
      intro l
      induction l with
      | nil => intro st h; exact h
      | cons x rest ih =>
        intro st h
        rw [Tracker.run, List.foldl_cons]
        exact ih _ (Tracker.Inv_step wl st x h)
    exact hgen ops _ hbase

/-- Witness for claim C5: a push acceptance from the empty ledger yields a
state whose single row has count 1 and one buffered message. -/
theorem claimC5_witness :
    Tracker.Inv (Tracker.step ["42"] ⟨[], []⟩
      (Tracker.Op.push
        ⟨7, JsVal.str "42", JsVal.undef, JsVal.str "d1", JsVal.undef⟩)).1 :=
  claimC5_ledger_invariant.1 ["42"] ⟨[], []⟩
    (Tracker.Op.push ⟨7, JsVal.str "42", JsVal.undef, JsVal.str "d1", JsVal.undef⟩)
    (fun u e hg => absurd hg (by simp [mapGet]))

namespace Daemon

lemma iterSchedule_length : ∀ (st : DaemonState) (n : Nat),
    (iterSchedule st n).2.length = n := by
  intro st n
  induction n generalizing st with
  | zero => rfl
  | succ n ih => simp [iterSchedule, ih]

lemma _scheduleReconnect_attempts (st : DaemonState) :
    (_scheduleReconnect st).1.reconnectAttempts = st.reconnectAttempts + 1 := rfl

lemma iterSchedule_get (n : Nat) : ∀ (st : DaemonState) (i : Nat), i < n →
    (iterSchedule st n).2.get? i
      = some (min (1000 * 2 ^ (st.reconnectAttempts + i)) maxReconnectDelay) := by
  induction n with
  | zero =>
    intro st i h
    exact absurd h (Nat.not_lt_zero i)
  | succ n ih =>
    intro st i h
    cases i with
    | zero =>
      simp [iterSchedule, _scheduleReconnect]
    | succ j =>
      have hj : j < n := Nat.lt_of_succ_lt_succ h
      have hrw := ih (_scheduleReconnect st).1 j hj
      rw [_scheduleReconnect_attempts] at hrw
      have harith : st.reconnectAttempts + 1 + j = st.reconnectAttempts + (j + 1) := by
        omega
      rw [harith] at hrw
      simpa [iterSchedule] using hrw

end Daemon

/-- Claim C7: after a successful WebSocket open (which resets the attempt
counter to 0), the Nth consecutively scheduled reconnect is armed with delay
exactly `min(1000 * 2^(N-1), 30000)` milliseconds; every scheduling
increments the attempt counter, no operation other than a successful open
ever lowers it, all N schedules take place (no maximum attempt count), and
the first delay after an open is again 1000 ms. -/
theorem claimC7_reconnect_backoff :
    ∀ (st : Daemon.DaemonState) (N : Nat), 1 ≤ N →
      ((Daemon.iterSchedule
          (Daemon.daemonStep st Daemon.DaemonOp.wsOpen).1 N).2.get? (N - 1)
        = some (min (1000 * 2 ^ (N - 1)) 30000)) ∧
      ((Daemon.iterSchedule
          (Daemon.daemonStep st Daemon.DaemonOp.wsOpen).1 N).2.length = N) ∧
      (∀ st2, (Daemon._scheduleReconnect st2).1.reconnectAttempts
        = st2.reconnectAttempts + 1) ∧
      ((Daemon.daemonStep st Daemon.DaemonOp.wsOpen).1.reconnectAttempts = 0) ∧
      (∀ st2 op, op ≠ Daemon.DaemonOp.wsOpen →
        st2.reconnectAttempts
          ≤ (Daemon.daemonStep st2 op).1.reconnectAttempts) ∧
      ((Daemon._scheduleReconnect
          (Daemon.daemonStep st Daemon.DaemonOp.wsOpen).1).2 = 1000) := by
  intro st N hN
  refine ⟨?_, ?_, fun st2 => rfl, rfl, ?_, rfl⟩
  · have h := Daemon.iterSchedule_get N
      (Daemon.daemonStep st Daemon.DaemonOp.wsOpen).1 (N - 1)
      (by omega)
    simpa [Daemon.daemonStep, Daemon.maxReconnectDelay] using h
  · exact Daemon.iterSchedule_length _ N
  · intro st2 op hop
    cases op with
    | healthOk => exact le_refl _
    | healthFail => exact le_refl _
    | getMe => exact le_refl _
    | getDialogs => exact le_refl _
    | getMessages => exact le_refl _
    | sendMessage => exact le_refl _
    | markReadReq => exact le_refl _
    | getProfilePhoto => exact le_refl _
    | wsOpen => exact absurd rfl hop
    | wsMessage parsed => exact le_refl _
    | wsClose => exact Nat.le_succ _
    | wsError => exact le_refl _
    | scheduleReconnect => exact Nat.le_succ _

/-- Witness for claim C7 at N = 6 from a state mid-backoff: the sixth
scheduled delay after an open is capped at 30000 ms. -/
theorem claimC7_witness :
    (Daemon.iterSchedule
        (Daemon.daemonStep ⟨false, 9⟩ Daemon.DaemonOp.wsOpen).1 6).2.get? 5
      = some 30000 :=
  Eq.trans ((claimC7_reconnect_backoff ⟨false, 9⟩ 6 (by decide)).1) (by decide)

/-- Claim C8 counterexample: the WebSocket close handler — not `getHealth` —
clears `ConnectionState.connected` and emits a connection-changed
notification, refuting the claim that `getHealth()` is the sole such
operation. -/
theorem claimC8_counterexample :
    (Daemon.daemonStep ⟨true, 0⟩ Daemon.DaemonOp.wsClose).1.connected = false ∧
    Daemon.DEvent.connectionChanged false
      ∈ (Daemon.daemonStep ⟨true, 0⟩ Daemon.DaemonOp.wsClose).2 ∧
    (Daemon.DaemonState.mk true 0).connected = true := by
  refine ⟨by decide, by decide, by decide⟩

/-- Claim C8 as amended: the operations that set `connected` and emit a
connection-changed notification are exactly the two `getHealth` outcomes,
the WS open handler and the WS close handler; the thin request wrappers and
the WS error handler are complete no-ops, and WS message handling and
reconnect scheduling leave `connected` unchanged and emit no
connection-changed notification. -/
theorem claimC8_amended_connection_mutators :
    ∀ (st : Daemon.DaemonState),
      (∀ op, op ∈ [Daemon.DaemonOp.getMe, Daemon.DaemonOp.getDialogs,
          Daemon.DaemonOp.getMessages, Daemon.DaemonOp.sendMessage,
          Daemon.DaemonOp.markReadReq, Daemon.DaemonOp.getProfilePhoto,
          Daemon.DaemonOp.wsError] →
        Daemon.daemonStep st op = (st, [])) ∧
      (∀ parsed,
        (Daemon.daemonStep st (Daemon.DaemonOp.wsMessage parsed)).1 = st ∧
        (∀ b, Daemon.DEvent.connectionChanged b
          ∉ (Daemon.daemonStep st (Daemon.DaemonOp.wsMessage parsed)).2)) ∧
      ((Daemon.daemonStep st Daemon.DaemonOp.scheduleReconnect).1.connected
          = st.connected ∧
        (∀ b, Daemon.DEvent.connectionChanged b
          ∉ (Daemon.daemonStep st Daemon.DaemonOp.scheduleReconnect).2)) ∧
      ((Daemon.daemonStep st Daemon.DaemonOp.healthOk).1.connected = true ∧
        Daemon.DEvent.connectionChanged true
          ∈ (Daemon.daemonStep st Daemon.DaemonOp.healthOk).2) ∧
      ((Daemon.daemonStep st Daemon.DaemonOp.healthFail).1.connected = false ∧
        Daemon.DEvent.connectionChanged false
          ∈ (Daemon.daemonStep st Daemon.DaemonOp.healthFail).2) ∧
      ((Daemon.daemonStep st Daemon.DaemonOp.wsOpen).1.connected = true ∧
        Daemon.DEvent.connectionChanged true
          ∈ (Daemon.daemonStep st Daemon.DaemonOp.wsOpen).2) ∧
      ((Daemon.daemonStep st Daemon.DaemonOp.wsClose).1.connected = false ∧
        Daemon.DEvent.connectionChanged false
          ∈ (Daemon.daemonStep st Daemon.DaemonOp.wsClose).2) := by
  intro st
  refine ⟨?_, ?_, ⟨rfl, by simp [Daemon.daemonStep]⟩,
    ⟨rfl, by simp [Daemon.daemonStep]⟩,
    ⟨rfl, by simp [Daemon.daemonStep]⟩,
    ⟨rfl, by simp [Daemon.daemonStep]⟩,
    ⟨rfl, by simp [Daemon.daemonStep, Daemon._scheduleReconnect]⟩⟩
  · intro op hop
    simp only [List.mem_cons, List.mem_singleton] at hop
    rcases hop with rfl | rfl | rfl | rfl | rfl | rfl | rfl | h
    · rfl
    · rfl
    · rfl
    · rfl
    · rfl
    · rfl
    · rfl
    · cases h
  · intro parsed
    refine ⟨rfl, ?_⟩
    intro b
    cases parsed with
    | none => simp [Daemon.daemonStep]
    | some t =>
      cases t with
      | none => simp [Daemon.daemonStep]
      | some s => simp [Daemon.daemonStep]

/-- Witness for the amended claim C8: `getMe` on a connected state is a
complete no-op. -/
theorem claimC8_witness :
    Daemon.daemonStep ⟨true, 3⟩ Daemon.DaemonOp.getMe = (⟨true, 3⟩, []) :=
  (claimC8_amended_connection_mutators ⟨true, 3⟩).1 Daemon.DaemonOp.getMe
    (by simp)

namespace Bubbles

lemma handleUnreadsChanged_length_le (screenW : Int) (settings : Settings)
    (st : BubbleState) (u : String) (c : Nat)
    (h : st.bubbles.length ≤ MAX_BUBBLES) :
    ((handleUnreadsChanged screenW settings st u c).1).bubbles.length
      ≤ MAX_BUBBLES := by
  unfold handleUnreadsChanged
  by_cases hc : 0 < c
  · simp only [hc, if_true]
    unfold createBubble
    by_cases hhas : mapHas st.bubbles u
    · simpa [hhas] using h
    · by_cases hcap : MAX_BUBBLES ≤ st.bubbles.length
      · simpa [hhas, hcap] using h
      · have hlt : st.bubbles.length < MAX_BUBBLES := by omega
        have hlen := mapSet_length_new st.bubbles u
          ⟨edgeX screenW (positionOf settings),
           100 + (st.bubbles.length : Int) * (BUBBLE_SIZE + BUBBLE_GAP)⟩
          (by simpa using hhas)
        simp only [hhas, hcap, Bool.false_eq_true, if_false]
        simpa [hlen] using hlt
  · simp only [hc, if_false]
    unfold removeBubble
    exact le_trans (mapDelete_length_le st.bubbles u) h

lemma handleUnreadsChanged_at_capacity (screenW : Int) (settings : Settings)
    (st : BubbleState) (u : String) (c : Nat)
    (hcap : MAX_BUBBLES ≤ st.bubbles.length)
    (hhas : mapHas st.bubbles u = false) (hc : 0 < c) :
    handleUnreadsChanged screenW settings st u c = (st, []) := by
  simp [handleUnreadsChanged, createBubble, hc, hhas, hcap]

lemma handleUnreadsChanged_update (screenW : Int) (settings : Settings)
    (st : BubbleState) (u : String) (c : Nat)
    (hhas : mapHas st.bubbles u = true) (hc : 0 < c) :
    handleUnreadsChanged screenW settings st u c
      = (st, [BubbleEffect.updated u c]) := by
  simp [handleUnreadsChanged, createBubble, hc, hhas]

lemma runEvents_length_le (screenW : Int) (settings : Settings)
    (events : List (String × Nat)) :
    ∀ st : BubbleState, st.bubbles.length ≤ MAX_BUBBLES →
      (runEvents screenW settings st events).bubbles.length ≤ MAX_BUBBLES := by
  induction events with
  | nil => intro st h; exact h
  | cons x rest ih =>
    intro st h
    rw [runEvents, List.foldl_cons]
    exact ih _ (handleUnreadsChanged_length_le screenW settings st x.1 x.2 h)

end Bubbles

/-- Claim C6 counterexample: with `maxBubbles` configured to 1, two
unread-changed events for distinct contacts from an empty pool yield two
live windows — the pool caps at the hard-coded `MAX_BUBBLES = 5`, never at
the configured `settings.maxBubbles`. -/
theorem claimC6_counterexample :
    (Bubbles.runEvents 1000 ⟨"right", 1⟩ ⟨[], true⟩
        [("a", 1), ("b", 1)]).bubbles.length = 2 ∧
    (Bubbles.Settings.mk "right" 1).maxBubbles = 1 ∧
    1 < 2 := by
  refine ⟨by decide, by decide, by decide⟩

/-- Claim C6 as amended: the pool never holds more than the hard-coded
constant `MAX_BUBBLES = 5` windows (the configured `settings.maxBubbles` is
not consulted); at that capacity an unread-changed event with positive count
for a contact without a window creates nothing, and an event for a contact
that already has a window updates it in place instead of creating a second
one. -/
theorem claimC6_amended_pool_cap :
    ∀ (screenW : Int) (settings : Bubbles.Settings) (st : Bubbles.BubbleState)
      (u : String) (c : Nat),
      (st.bubbles.length ≤ Bubbles.MAX_BUBBLES →
        ((Bubbles.handleUnreadsChanged screenW settings st u c).1).bubbles.length
          ≤ Bubbles.MAX_BUBBLES) ∧
      (Bubbles.MAX_BUBBLES ≤ st.bubbles.length →
        mapHas st.bubbles u = false → 0 < c →
        Bubbles.handleUnreadsChanged screenW settings st u c = (st, [])) ∧
      (mapHas st.bubbles u = true → 0 < c →
        Bubbles.handleUnreadsChanged screenW settings st u c
          = (st, [Bubbles.BubbleEffect.updated u c])) ∧
      (∀ events, (Bubbles.runEvents screenW settings ⟨[], true⟩
          events).bubbles.length ≤ Bubbles.MAX_BUBBLES) := by
  intro screenW settings st u c
  refine ⟨Bubbles.handleUnreadsChanged_length_le screenW settings st u c,
    Bubbles.handleUnreadsChanged_at_capacity screenW settings st u c,
    Bubbles.handleUnreadsChanged_update screenW settings st u c,
    fun events =>
      Bubbles.runEvents_length_le screenW settings events ⟨[], true⟩
        (by simp [Bubbles.MAX_BUBBLES])⟩

/-- Witness for the amended claim C6: a full pool of five windows refuses a
sixth contact but updates an existing one. -/
theorem claimC6_witness :
    (Bubbles.handleUnreadsChanged 1000 ⟨"right", 5⟩
        ⟨[("a", ⟨916, 100⟩), ("b", ⟨916, 176⟩), ("c", ⟨916, 252⟩),
          ("d", ⟨916, 328⟩), ("e", ⟨916, 404⟩)], true⟩ "f" 2
      = (⟨[("a", ⟨916, 100⟩), ("b", ⟨916, 176⟩), ("c", ⟨916, 252⟩),
          ("d", ⟨916, 328⟩), ("e", ⟨916, 404⟩)], true⟩, [])) ∧
    (Bubbles.handleUnreadsChanged 1000 ⟨"right", 5⟩
        ⟨[("a", ⟨916, 100⟩), ("b", ⟨916, 176⟩), ("c", ⟨916, 252⟩),
          ("d", ⟨916, 328⟩), ("e", ⟨916, 404⟩)], true⟩ "b" 3
      = (⟨[("a", ⟨916, 100⟩), ("b", ⟨916, 176⟩), ("c", ⟨916, 252⟩),
          ("d", ⟨916, 328⟩), ("e", ⟨916, 404⟩)], true⟩,
         [Bubbles.BubbleEffect.updated "b" 3])) :=
  ⟨(claimC6_amended_pool_cap 1000 ⟨"right", 5⟩
      ⟨[("a", ⟨916, 100⟩), ("b", ⟨916, 176⟩), ("c", ⟨916, 252⟩),
        ("d", ⟨916, 328⟩), ("e", ⟨916, 404⟩)], true⟩ "f" 2).2.1
    (by decide) (by decide) (by decide),
   (claimC6_amended_pool_cap 1000 ⟨"right", 5⟩
      ⟨[("a", ⟨916, 100⟩), ("b", ⟨916, 176⟩), ("c", ⟨916, 252⟩),
        ("d", ⟨916, 328⟩), ("e", ⟨916, 404⟩)], true⟩ "b" 3).2.2.1
    (by decide) (by decide)⟩

namespace Bubbles

lemma assignSlots_get (screenW : Int) (position : String) :
    ∀ (l : List (String × Bubble)) (index i : Nat),
      (assignSlots screenW position index l).get? i
        = (l.get? i).map (fun p => (p.1,
            (⟨edgeX screenW position,
              100 + ((index + i : Nat) : Int) * (BUBBLE_SIZE + BUBBLE_GAP)⟩ : Bubble))) := by
  intro l
  induction l with
  | nil => intro index i; simp [assignSlots]
  | cons p rest ih =>
    intro index i
    cases i with
    | zero => simp [assignSlots]
    | succ j =>
      have harith : index + 1 + j = index + (j + 1) := by omega
      have hrw := ih (index + 1) j
      rw [harith] at hrw
      simpa [assignSlots] using hrw

lemma assignSlots_keys (screenW : Int) (position : String) :
    ∀ (l : List (String × Bubble)) (index : Nat),
      (assignSlots screenW position index l).map (fun q => q.1)
        = l.map (fun q => q.1) := by
  intro l
  induction l with
  | nil => intro index; rfl
  | cons p rest ih =>
    intro index
    simp [assignSlots, ih (index + 1)]

end Bubbles

/-- Claim C9 counterexample: two windows at slots 0 and 1 (y = 100 and
y = 176); removing the first leaves the remaining window still at y = 176 —
`removeBubble` never calls `repositionAll`, so the claim that positions are
recomputed to compact slots after any removal fails. -/
theorem claimC9_counterexample :
    (Bubbles.removeBubble
        (Bubbles.runEvents 1000 ⟨"right", 5⟩ ⟨[], true⟩
          [("a", 1), ("b", 1)]) "a").1.bubbles
      = [("b", ⟨916, 176⟩)] ∧
    (176 : Int) ≠ 100 + 0 * (Bubbles.BUBBLE_SIZE + Bubbles.BUBBLE_GAP) := by
  refine ⟨by decide, by decide⟩

/-- Claim C9 as amended: a removal leaves every other window at its previous
position, so a gap persists until `repositionAll()` runs; `repositionAll()`
(invoked by the update-settings handler exactly when the update carries a
`bubblePosition`, and by nothing else in the pool) reassigns the surviving
windows, in insertion order, to consecutive slot indices 0..n-1 at
y = 100 + index * (size + gap) on the configured edge. -/
theorem claimC9_amended_repositioning :
    (∀ (st : Bubbles.BubbleState) (u v : String), v ≠ u →
      mapGet ((Bubbles.removeBubble st u).1).bubbles v = mapGet st.bubbles v) ∧
    (∀ (screenW : Int) (settings : Bubbles.Settings)
        (st : Bubbles.BubbleState) (i : Nat) (p : String × Bubbles.Bubble),
      (Bubbles.repositionAll screenW settings st).bubbles.get? i = some p →
      p.2.y = 100 + (i : Int) * (Bubbles.BUBBLE_SIZE + Bubbles.BUBBLE_GAP) ∧
      p.2.x = Bubbles.edgeX screenW (Bubbles.positionOf settings)) ∧
    (∀ (screenW : Int) (settings : Bubbles.Settings)
        (st : Bubbles.BubbleState),
      (Bubbles.repositionAll screenW settings st).bubbles.map (fun q => q.1)
        = st.bubbles.map (fun q => q.1)) ∧
    (∀ (screenW : Int) (settings : Bubbles.Settings) (pos : String)
        (st : Bubbles.BubbleState),
      Bubbles.updateSettingsApply screenW settings (some pos) st
        = Bubbles.repositionAll screenW
            { settings with bubblePosition := pos } st) ∧
    (∀ (screenW : Int) (settings : Bubbles.Settings)
        (st : Bubbles.BubbleState),
      Bubbles.updateSettingsApply screenW settings none st = st) := by
  refine ⟨?_, ?_, ?_, fun screenW settings pos st => rfl,
    fun screenW settings st => rfl⟩
  · intro st u v hv
    exact mapGet_delete_ne st.bubbles u v hv
  · intro screenW settings st i p hp
    rw [Bubbles.repositionAll] at hp
    rw [Bubbles.assignSlots_get screenW (Bubbles.positionOf settings)
      st.bubbles 0 i] at hp
    cases hq : st.bubbles.get? i with
    | none => rw [hq] at hp; cases hp
    | some q =>
      rw [hq] at hp
      simp only [Option.map_some'] at hp
      cases hp
      constructor
      · simp
      · rfl
  · intro screenW settings st
    exact Bubbles.assignSlots_keys screenW (Bubbles.positionOf settings)
      st.bubbles 0

/-- Witness for the amended claim C9: removing "a" from a two-window pool
leaves "b" untouched at its old slot, and repositioning then compacts "b" to
slot 0 (y = 100). -/
theorem claimC9_witness :
    mapGet ((Bubbles.removeBubble
        ⟨[("a", ⟨916, 100⟩), ("b", ⟨916, 176⟩)], true⟩ "a").1).bubbles "b"
      = some ⟨916, 176⟩ ∧
    ((Bubbles.Bubble.mk 916 176).y
      = 100 + (1 : Int) * (Bubbles.BUBBLE_SIZE + Bubbles.BUBBLE_GAP)) ∧
    ((Bubbles.repositionAll 1000 ⟨"right", 5⟩
        ⟨[("b", ⟨916, 176⟩)], true⟩).bubbles.get? 0
        = some ("b", ⟨916, 100⟩)) :=
  ⟨Eq.trans (claimC9_amended_repositioning.1
      ⟨[("a", ⟨916, 100⟩), ("b", ⟨916, 176⟩)], true⟩ "a" "b" (by decide))
    (by decide),
   by decide,
   by decide⟩
